import Mathlib

/-!
A shallow embedding of `src/main.rs` of the timing-surface-stats program.

Modelling conventions:
* Rust `f32` run times are modelled as exact rationals (`ℚ`); every numeric
  literal the development evaluates is exactly representable in single
  precision, so no claim settled here depends on rounding.  `ℚ` has no NaN
  or infinity; where the Rust code would produce or crash on such values the
  embedding makes the failure explicit (see `median`).
* Rust's `HashMap` is modelled as an association list.  The fold that builds
  it (`from_iter`) updates the entry of an existing key in place and appends
  a fresh key at the end, so keys stay distinct; iteration order of the map
  is the order of the list, which the claims about ordering make explicit.
* A Rust panic (the out-of-bounds index in `median` when `run_times` is
  empty, reached through the wrapping/overflowing `len/2 - 1`) is modelled
  by `Option`/`Except.error`: `none` is a runtime fault, not a value.
* `sort_unstable_by` with `partial_cmp(..).unwrap()` over NaN-free values is
  a total-order sort; it is modelled by insertion sort, which is what the
  Rust implementation itself runs on slices of the sizes used here, and on
  plain rationals any comparison sort yields the same sorted list.
* The parsers mirror the nom combinators used by the source, specialised to
  complete input (`&str` becomes `List Char`, `IResult` becomes
  `Option (remaining × value)`).  The numeric alternative follows the
  grammar of nom's `float` on decimal literals — optional sign, digits with
  optional fraction, optional exponent; the special literals nan/inf lie
  outside the rational value model and no claim touches them.
-/

/-- Propositional equality of `Except` values is decidable componentwise
(used to evaluate the embedded `parse_line` on concrete lines). -/
instance {ε α : Type} [DecidableEq ε] [DecidableEq α] : DecidableEq (Except ε α) := fun a b =>
  match a, b with
  | Except.ok x, Except.ok y =>
    if h : x = y then Decidable.isTrue (by rw [h]) else Decidable.isFalse (by simp [h])
  | Except.error x, Except.error y =>
    if h : x = y then Decidable.isTrue (by rw [h]) else Decidable.isFalse (by simp [h])
  | Except.ok _, Except.error _ => Decidable.isFalse (by simp)
  | Except.error _, Except.ok _ => Decidable.isFalse (by simp)

namespace TimingStats

/-- `enum Entry` from the source: the outcome of one line. -/
inductive Entry where
  | Success : Entry
  | RunTime : ℚ → Entry
deriving DecidableEq

/-- `struct Line` from the source: one parsed log line. -/
structure Line where
  population_size : Nat
  num_generations : Nat
  run_number : Nat
  entry : Entry
deriving DecidableEq

/-- `struct Result` from the source: the per-configuration accumulator
(`#[derive(Default)]` gives the all-zero/empty value). -/
structure Result where
  num_runs : Nat := 0
  num_successes : Nat := 0
  run_times : List ℚ := []
deriving DecidableEq

instance : Inhabited Result := ⟨{}⟩

/-- The grouping key `(population_size, num_generations)`. -/
abbrev ConfigKey := Nat × Nat

/-- `type Data = HashMap<(u32, u32), Result>`, as an association list. -/
abbrev Data := List (ConfigKey × Result)

/-- The key of a line, as computed in the `FromIterator` loop. -/
def keyOf (l : Line) : ConfigKey := (l.population_size, l.num_generations)

/-- The match arm of the `FromIterator` loop: fold one outcome into the
accumulator fetched by `data.entry(key).or_default()`. -/
def updateEntry (r : Result) (e : Entry) : Result :=
  match e with
  | Entry.Success => { r with num_successes := r.num_successes + 1 }
  | Entry.RunTime v => { r with num_runs := r.num_runs + 1, run_times := r.run_times ++ [v] }

/-- `data.entry(key).or_default()` followed by the mutation: update the
entry of `key` in place, inserting a default entry if the key is absent. -/
def updateData (data : Data) (key : ConfigKey) (e : Entry) : Data :=
  match data with
  | [] => [(key, updateEntry {} e)]
  | (k, r) :: rest =>
    if k = key then (k, updateEntry r e) :: rest else (k, r) :: updateData rest key e

/-- One iteration of the `FromIterator for Data` loop. -/
def insertLine (data : Data) (l : Line) : Data := updateData data (keyOf l) l.entry

/-- `impl FromIterator<&Line> for Data`: fold all lines into the mapping. -/
def from_iter (lines : List Line) : Data := lines.foldl insertLine []

/-- Reading a key out of the mapping (`default` where the key is absent). -/
def lookupResult (data : Data) (key : ConfigKey) : Result :=
  match data with
  | [] => {}
  | (k, r) :: rest => if k = key then r else lookupResult rest key

/-- `fn mean`: sum divided by length.  (On the empty list the Rust code
divides `0.0/0.0`; in `ℚ` division by zero is `0` — no claim settled here
uses the numeric value of the empty-list mean.) -/
def mean (vals : List ℚ) : ℚ := vals.sum / (vals.length : ℚ)

/-- The ascending sort `vals.sort_unstable_by(partial_cmp ... unwrap)`
performed inside `fn median`. -/
def sortAsc (vals : List ℚ) : List ℚ := List.insertionSort (· ≤ ·) vals

/-- `fn median`: sort ascending, then take the middle element (odd length)
or the mean of the two middle elements (even length).  The out-of-range
index the Rust code computes on the empty slice — `vals[len/2 - 1]` with
`len = 0` panics whether the subtraction overflows (debug) or wraps and
indexes out of bounds (release) — is modelled by the `none` result of the
checked lookup. -/
def median (vals : List ℚ) : Option ℚ :=
  let sorted := sortAsc vals
  if sorted.length % 2 = 1 then
    sorted[sorted.length / 2]?
  else
    match sorted[sorted.length / 2 - 1]?, sorted[sorted.length / 2]? with
    | some a, some b => some ((a + b) / 2)
    | _, _ => none

/-- `struct Stat` from the source: the derived summary for one key. -/
structure Stat where
  result : Result
  mean_run_time : ℚ
  median_run_time : ℚ
  successes_per_mean : ℚ
  successes_per_median : ℚ
deriving DecidableEq

/-- `type Stats = HashMap<(u32, u32), Stat>`, as an association list. -/
abbrev Stats := List (ConfigKey × Stat)

/-- `fn data_to_stats`: one `Stat` per entry of `Data`; `none` models the
panic that the first entry with empty `run_times` raises inside `median`. -/
def data_to_stats : Data → Option Stats
  | [] => some []
  | (key, result) :: rest =>
    match median result.run_times with
    | none => none
    | some median_run_time =>
      match data_to_stats rest with
      | none => none
      | some stats =>
        let successes : ℚ := result.num_successes
        let mean_run_time := mean result.run_times
        some ((key, { result := result
                      mean_run_time := mean_run_time
                      median_run_time := median_run_time
                      successes_per_mean := successes / mean_run_time
                      successes_per_median := successes / median_run_time }) :: stats)

/-- The comparator `|(_, b), (_, y)| b.metric.partial_cmp(&y.metric).unwrap()`
passed to `sort_unstable_by` (a total order on the NaN-free values in play). -/
def metricLE (metric : Stat → ℚ) (p q : ConfigKey × Stat) : Prop := metric p.2 ≤ metric q.2

instance (metric : Stat → ℚ) : DecidableRel (metricLE metric) :=
  fun p q => inferInstanceAs (Decidable (metric p.2 ≤ metric q.2))

instance (metric : Stat → ℚ) : IsTotal (ConfigKey × Stat) (metricLE metric) :=
  ⟨fun _ _ => le_total _ _⟩

instance (metric : Stat → ℚ) : IsTrans (ConfigKey × Stat) (metricLE metric) :=
  ⟨fun _ _ _ => le_trans⟩

/-- `pairs.sort_unstable_by(...partial_cmp...)` over the chosen metric.
Insertion sort is the algorithm Rust's `sort_unstable_by` runs on slices of
the sizes exercised here; ties between distinct entries keep the order of
the sort's input slice (for the second table that input is the vector the
first sort already reordered, as in the source). -/
def sortByMetric (metric : Stat → ℚ) (pairs : List (ConfigKey × Stat)) :
    List (ConfigKey × Stat) :=
  List.insertionSort (metricLE metric) pairs

/-- What `main` prints after the statistics succeed: the debug dump of the
mapping and the two ranked tables (the second sort reorders the same
vector the first one sorted, as in the source). -/
structure Report where
  debug_stats : Stats
  table1 : List (ConfigKey × ℚ)
  table2 : List (ConfigKey × ℚ)
deriving DecidableEq

/-- The reporting tail of `main`, applied to the `Stats` in the iteration
order the mapping happens to give up (the list order). -/
def report (stats : Stats) : Report :=
  let pairs1 := sortByMetric Stat.successes_per_mean stats
  let pairs2 := sortByMetric Stat.successes_per_median pairs1
  { debug_stats := stats
    table1 := pairs1.map (fun p => (p.1, p.2.successes_per_mean))
    table2 := pairs2.map (fun p => (p.1, p.2.successes_per_median)) }

/-! ### The line parser (nom combinators specialised to this grammar) -/

/-- Parser input: the rest of the line being consumed. -/
abbrev Input := List Char

/-- nom's `tag`: consume an exact literal prefix. -/
def tag (t : Input) (s : Input) : Option (Input × Input) :=
  if t.isPrefixOf s then some (s.drop t.length, t) else none

/-- The maximal run of decimal digits at the front of the input. -/
def takeDigits : Input → Input × Input
  | [] => ([], [])
  | c :: cs =>
    if c.isDigit then
      let (ds, rest) := takeDigits cs
      (c :: ds, rest)
    else ([], c :: cs)

/-- Value of a digit string. -/
def digitsVal (ds : Input) : Nat := ds.foldl (fun acc c => acc * 10 + (c.toNat - 48)) 0

/-- nom's `character::complete::u32`: one or more decimal digits whose value
fits in 32 bits (nom rejects overflowing literals). -/
def u32 (s : Input) : Option (Input × Nat) :=
  let (ds, rest) := takeDigits s
  if ds.isEmpty then none
  else if digitsVal ds < 2 ^ 32 then some (rest, digitsVal ds) else none

/-- nom's `space0`: zero or more spaces or tabs. -/
def space0 (s : Input) : Option (Input × Unit) :=
  some (s.dropWhile (fun c => c == ' ' || c == '\t'), ())

/-- nom's `character::complete::char`. -/
def char (c : Char) (s : Input) : Option (Input × Char) :=
  match s with
  | [] => none
  | d :: rest => if d = c then some (rest, c) else none

/-- Leading sign of a float literal. -/
def signVal : Input → ℚ × Input
  | '-' :: rest => (-1, rest)
  | '+' :: rest => (1, rest)
  | s => (1, s)

/-- Mantissa value from the integer digits and the fraction digits. -/
def mantissa (ipart fpart : Input) : ℚ :=
  (digitsVal ipart : ℚ) + (digitsVal fpart : ℚ) / (10 : ℚ) ^ fpart.length

/-- Optional exponent `e|E [sign] digits`; when the digits are missing the
whole exponent is left unconsumed, as with nom's `opt`. -/
def exponent (s : Input) : Int × Input :=
  match s with
  | [] => (0, [])
  | c :: rest =>
    if c == 'e' || c == 'E' then
      match rest with
      | '-' :: r2 =>
        let (ds, r3) := takeDigits r2
        if ds.isEmpty then (0, s) else (-(digitsVal ds : Int), r3)
      | '+' :: r2 =>
        let (ds, r3) := takeDigits r2
        if ds.isEmpty then (0, s) else ((digitsVal ds : Int), r3)
      | r2 =>
        let (ds, r3) := takeDigits r2
        if ds.isEmpty then (0, s) else ((digitsVal ds : Int), r3)
    else (0, s)

/-- nom's `number::complete::float` on decimal literals: optional sign, then
either digits with an optional `.`-fraction or `.` followed by digits, then
an optional exponent.  The value is taken as an exact rational. -/
def float (s : Input) : Option (Input × ℚ) :=
  let (sgn, s1) := signVal s
  let (ipart, s2) := takeDigits s1
  if ipart.isEmpty then
    match s2 with
    | '.' :: s3 =>
      let (fpart, s4) := takeDigits s3
      if fpart.isEmpty then none
      else
        let (e, s5) := exponent s4
        some (s5, sgn * mantissa [] fpart * (10 : ℚ) ^ e)
    | _ => none
  else
    match s2 with
    | '.' :: s3 =>
      let (fpart, s4) := takeDigits s3
      let (e, s5) := exponent s4
      some (s5, sgn * mantissa ipart fpart * (10 : ℚ) ^ e)
    | _ =>
      let (e, s5) := exponent s2
      some (s5, sgn * mantissa ipart [] * (10 : ℚ) ^ e)

/-- `fn pop_size`: `preceded(tag("PS_"), u32)`. -/
def pop_size (s : Input) : Option (Input × Nat) := do
  let (s1, _) ← tag "PS_".toList s
  u32 s1

/-- `fn num_gens`: `preceded(tag("/NG_"), u32)`. -/
def num_gens (s : Input) : Option (Input × Nat) := do
  let (s1, _) ← tag "/NG_".toList s
  u32 s1

/-- `fn run_num`: `tuple((tag("/run_"), u32, tag(".output")))`. -/
def run_num (s : Input) : Option (Input × Nat) := do
  let (s1, _) ← tag "/run_".toList s
  let (s2, n) ← u32 s1
  let (s3, _) ← tag ".output".toList s2
  some (s3, n)

/-- `fn path`: `tuple((pop_size, num_gens, run_num))`. -/
def path (s : Input) : Option (Input × (Nat × Nat × Nat)) := do
  let (s1, ps) ← pop_size s
  let (s2, ng) ← num_gens s1
  let (s3, rn) ← run_num s2
  some (s3, (ps, ng, rn))

/-- `fn success`: `map(tag("SUCCESS"), |_| Entry::Success)`. -/
def success (s : Input) : Option (Input × Entry) := do
  let (s1, _) ← tag "SUCCESS".toList s
  some (s1, Entry.Success)

/-- `fn run_time`: `map(preceded(space0, float), RunTime)`. -/
def run_time (s : Input) : Option (Input × Entry) := do
  let (s1, _) ← space0 s
  let (s2, v) ← float s1
  some (s2, Entry.RunTime v)

/-- `fn entry`: `alt((success, run_time))` — the literal alternative first,
the numeric one only when it fails. -/
def entry (s : Input) : Option (Input × Entry) :=
  match success s with
  | some r => some r
  | none => run_time s

/-- `fn line`: `separated_pair(path, char(':'), entry)`. -/
def line (s : Input) : Option (Input × Line) := do
  let (s1, p) ← path s
  let (s2, _) ← char ':' s1
  let (s3, e) ← entry s2
  some (s3, { population_size := p.1, num_generations := p.2.1,
              run_number := p.2.2, entry := e })

/-- The ways this program's run can abort. -/
inductive RunError where
  | parseFailure : Input → RunError
  | panicIndex : RunError
deriving DecidableEq

/-- `fn parse_line`: run `line` and drop the unconsumed remainder; a nom
error becomes the `anyhow` error that aborts `main`. -/
def parse_line (s : Input) : Except RunError Line :=
  match line s with
  | some (_, l) => Except.ok l
  | none => Except.error (RunError.parseFailure s)

/-- `.map(parse_line).collect::<anyhow::Result<Vec<_>>>()`: all lines, or
the error of the first line that fails. -/
def parseLines : List Input → Except RunError (List Line)
  | [] => Except.ok []
  | s :: rest =>
    match parse_line s with
    | Except.error e => Except.error e
    | Except.ok l =>
      match parseLines rest with
      | Except.error e => Except.error e
      | Except.ok ls => Except.ok (l :: ls)

/-- `fn main` after the file read: parse every line (aborting at the first
failure, before anything is printed), aggregate, derive the statistics
(`Except.error .panicIndex` models the panic), and print the report.
`Except.error` is a non-zero exit with no tables printed. -/
def run (input : List Input) : Except RunError Report :=
  match parseLines input with
  | Except.error e => Except.error e
  | Except.ok lines =>
    match data_to_stats (from_iter lines) with
    | none => Except.error RunError.panicIndex
    | some stats => Except.ok (report stats)

/-! ### Observation predicates on outcomes (for the counting claims) -/

/-- The run-time payload of an outcome, when it has one. -/
def runTimeValue : Entry → Option ℚ
  | Entry.Success => none
  | Entry.RunTime v => some v

/-- Whether an outcome is a `RunTime` observation. -/
def isRunTimeE (e : Entry) : Bool := (runTimeValue e).isSome

/-- Whether an outcome is a `Success` observation. -/
def isSuccessE : Entry → Bool
  | Entry.Success => true
  | Entry.RunTime _ => false

/-- The order-statistic median exactly as the spec phrases it, for
comparison with the source's `median`: the list sorted ascending; the
element at index `n/2` for odd length `n`; the arithmetic mean of the
elements at indices `n/2 - 1` and `n/2` for even length. -/
def median_spec (vals : List ℚ) : ℚ :=
  let sorted := sortAsc vals
  if sorted.length % 2 = 1 then
    sorted.getD (sorted.length / 2) 0
  else
    (sorted.getD (sorted.length / 2 - 1) 0 + sorted.getD (sorted.length / 2) 0) / 2

/-! ### Concrete data used by the witnesses and counterexamples -/

/-- A mapping with one key that observed only successes (no run times). -/
def exampleEmptyData : Data := [((10, 20), { num_runs := 0, num_successes := 1, run_times := [] })]

/-- Two observations for the same key, differing only in run number and
measured time. -/
def lineA : Line :=
  { population_size := 1, num_generations := 2, run_number := 0, entry := Entry.RunTime 1 }

def lineB : Line :=
  { population_size := 1, num_generations := 2, run_number := 1, entry := Entry.RunTime 2 }

/-- One key with one run time and one success. -/
def exampleLines : List Line :=
  [{ population_size := 1, num_generations := 2, run_number := 0, entry := Entry.RunTime 3 },
   { population_size := 1, num_generations := 2, run_number := 1, entry := Entry.Success }]

/-- A one-key mapping with a run time recorded (the statistics succeed). -/
def exampleData1 : Data := [((1, 2), { num_runs := 1, num_successes := 1, run_times := [3] })]

/-- The statistics the engine derives from `exampleData1`. -/
def exampleStats1 : Stats := (data_to_stats exampleData1).getD []

/-- The statistics the engine derives from the aggregation of `exampleLines`. -/
def exampleStats2 : Stats := (data_to_stats (from_iter exampleLines)).getD []

/-- The single entry of `exampleStats2`. -/
def exampleStatEntry : ConfigKey × Stat :=
  exampleStats2.headD
    ((0, 0), { result := {}, mean_run_time := 0, median_run_time := 0,
               successes_per_mean := 0, successes_per_median := 0 })

/-- A `Stat` whose two derived metrics are the same value, for exercising
ties in the ranking sort. -/
def statA : Stat :=
  { result := { num_runs := 1, num_successes := 1, run_times := [1] },
    mean_run_time := 1, median_run_time := 1,
    successes_per_mean := 1, successes_per_median := 1 }

/-! ### Helper lemmas -/

theorem median_nil : median [] = none := rfl

/-- `collect::<anyhow::Result<_>>` surfaces the error of the first line the
grammar rejects. -/
theorem parseLines_find_error (input : List Input) (t : Input)
    (hfind : input.find? (fun s => (line s).isNone) = some t) :
    parseLines input = Except.error (RunError.parseFailure t) := by
  induction input with
  | nil => simp at hfind
  | cons s rest ih =>
    by_cases h : (line s).isNone
    · rw [List.find?_cons_of_pos _ (by simpa using h)] at hfind
      obtain rfl : s = t := by simpa using hfind
      have hnone : line s = none := by simpa [Option.isNone_iff_eq_none] using h
      simp [parseLines, parse_line, hnone]
    · have hfind' : rest.find? (fun s => (line s).isNone) = some t := by
        rwa [List.find?_cons_of_neg _ (by simpa using h)] at hfind
      obtain ⟨p, hp⟩ : ∃ p, line s = some p := by
        cases hl : line s with
        | none => simp [hl] at h
        | some p => exact ⟨p, rfl⟩
      simp [parseLines, parse_line, hp, ih hfind']

/-- Reading back a key after `entry(key).or_default()` plus mutation. -/
theorem lookupResult_updateData (data : Data) (key : ConfigKey) (e : Entry) (k : ConfigKey) :
    lookupResult (updateData data key e) k =
      if key = k then updateEntry (lookupResult data key) e else lookupResult data k := by
  induction data with
  | nil => by_cases h : key = k <;> simp [updateData, lookupResult, h]
  | cons hd tl ih =>
    obtain ⟨k0, r0⟩ := hd
    by_cases h0 : k0 = key
    · subst h0
      by_cases h1 : k0 = k <;> simp [updateData, lookupResult, h1]
    · by_cases h1 : k0 = k
      · subst h1
        have h2 : key ≠ k0 := fun hh => h0 hh.symm
        simp [updateData, lookupResult, h0, h2]
      · simp [updateData, lookupResult, h0, h1, ih]

/-- Folding lines into the mapping and then reading one key is the same as
folding just that key's outcomes into its accumulator. -/
theorem lookupResult_foldl_insertLine (lines : List Line) (data : Data) (key : ConfigKey) :
    lookupResult (lines.foldl insertLine data) key =
      ((lines.filter fun l => decide (keyOf l = key)).map Line.entry).foldl updateEntry
        (lookupResult data key) := by
  induction lines generalizing data with
  | nil => rfl
  | cons l ls ih =>
    rw [List.foldl_cons, ih]
    by_cases h : keyOf l = key
    · have hbase : lookupResult (insertLine data l) key = updateEntry (lookupResult data key) l.entry := by
        rw [insertLine, lookupResult_updateData, if_pos h, h]
      rw [hbase, List.filter_cons_of_pos (by simpa using h), List.map_cons, List.foldl_cons]
    · have hbase : lookupResult (insertLine data l) key = lookupResult data key := by
        rw [insertLine, lookupResult_updateData, if_neg h]
      rw [hbase, List.filter_cons_of_neg (by simpa using h)]

theorem runTimeValue_success : runTimeValue Entry.Success = none := rfl

theorem runTimeValue_runtime (v : ℚ) : runTimeValue (Entry.RunTime v) = some v := rfl

theorem isRunTimeE_success : isRunTimeE Entry.Success = false := rfl

theorem isRunTimeE_runtime (v : ℚ) : isRunTimeE (Entry.RunTime v) = true := rfl

theorem isSuccessE_success : isSuccessE Entry.Success = true := rfl

theorem isSuccessE_runtime (v : ℚ) : isSuccessE (Entry.RunTime v) = false := rfl

/-- Folding a list of outcomes into an accumulator adds the `RunTime` count
to `num_runs`, the `Success` count to `num_successes`, and appends the
observed times in order. -/
theorem foldl_updateEntry_spec (es : List Entry) (r : Result) :
    es.foldl updateEntry r =
      { num_runs := r.num_runs + es.countP isRunTimeE,
        num_successes := r.num_successes + es.countP isSuccessE,
        run_times := r.run_times ++ es.filterMap runTimeValue } := by
  induction es generalizing r with
  | nil => simp
  | cons e es ih =>
    cases e with
    | Success =>
      rw [List.foldl_cons, ih]
      simp [updateEntry, List.countP_cons, List.filterMap_cons, runTimeValue_success,
        isRunTimeE_success, isSuccessE_success, Result.mk.injEq]
      try omega
    | RunTime v =>
      rw [List.foldl_cons, ih]
      simp [updateEntry, List.countP_cons, List.filterMap_cons, runTimeValue_runtime,
        isRunTimeE_runtime, isSuccessE_runtime, Result.mk.injEq]
      try omega

/-- The accumulator the Aggregator leaves at a key, in closed form. -/
theorem lookupResult_from_iter (lines : List Line) (key : ConfigKey) :
    lookupResult (from_iter lines) key =
      { num_runs := lines.countP fun l => isRunTimeE l.entry && decide (keyOf l = key),
        num_successes := lines.countP fun l => isSuccessE l.entry && decide (keyOf l = key),
        run_times := (lines.filter fun l => decide (keyOf l = key)).filterMap
          fun l => runTimeValue l.entry } := by
  rw [from_iter, lookupResult_foldl_insertLine, foldl_updateEntry_spec]
  simp [List.countP_map, List.countP_filter, List.filterMap_map, lookupResult, Result.mk.injEq]
  rfl

/-- Counting `RunTime` outcomes is the same as measuring the extracted
run-time list. -/
theorem length_filterMap_runTimeValue (lines : List Line) :
    ((lines.filterMap fun l => runTimeValue l.entry).length)
      = lines.countP fun l => isRunTimeE l.entry := by
  induction lines with
  | nil => rfl
  | cons x xs ih =>
    cases hx : x.entry with
    | Success =>
      simp [List.filterMap_cons, hx, List.countP_cons, runTimeValue_success,
        isRunTimeE_success, ih]
    | RunTime v =>
      simp [List.filterMap_cons, hx, List.countP_cons, runTimeValue_runtime,
        isRunTimeE_runtime, ih]

/-- Each accumulator step keeps `num_runs` equal to the number of stored
run times. -/
theorem updateEntry_preserves_count (r : Result) (e : Entry)
    (h : r.num_runs = r.run_times.length) :
    (updateEntry r e).num_runs = (updateEntry r e).run_times.length := by
  cases e <;> simp [updateEntry, h]

/-- `entry().or_default()` plus mutation keeps the count invariant of every
entry of the mapping. -/
theorem updateData_preserves_count (data : Data) (key : ConfigKey) (e : Entry)
    (hdata : ∀ p ∈ data, (p.2 : Result).num_runs = p.2.run_times.length) :
    ∀ p ∈ updateData data key e, (p.2 : Result).num_runs = p.2.run_times.length := by
  induction data with
  | nil =>
    intro p hp
    simp only [updateData, List.mem_singleton] at hp
    subst hp
    exact updateEntry_preserves_count _ _ rfl
  | cons hd tl ih =>
    obtain ⟨k0, r0⟩ := hd
    intro p hp
    by_cases h0 : k0 = key
    · rw [updateData, if_pos h0] at hp
      rcases List.mem_cons.mp hp with heq | hmem
      · subst heq
        exact updateEntry_preserves_count _ _ (hdata (k0, r0) (List.mem_cons_self _ _))
      · exact hdata p (List.mem_cons_of_mem _ hmem)
    · rw [updateData, if_neg h0] at hp
      rcases List.mem_cons.mp hp with heq | hmem
      · subst heq
        exact hdata (k0, r0) (List.mem_cons_self _ _)
      · exact ih (fun q hq => hdata q (List.mem_cons_of_mem _ hq)) p hmem

/-- Every accumulator the Aggregator produces satisfies the count
invariant. -/
theorem from_iter_preserves_count (lines : List Line) :
    ∀ p ∈ from_iter lines, (p.2 : Result).num_runs = p.2.run_times.length := by
  rw [from_iter]
  have core : ∀ (ls : List Line) (data : Data),
      (∀ p ∈ data, (p.2 : Result).num_runs = p.2.run_times.length) →
      ∀ p ∈ ls.foldl insertLine data, (p.2 : Result).num_runs = p.2.run_times.length := by
    intro ls
    induction ls with
    | nil => intro data hdata; simpa using hdata
    | cons l ls ih =>
      intro data hdata
      rw [List.foldl_cons]
      exact ih _ (updateData_preserves_count data (keyOf l) l.entry hdata)
  exact core lines [] (by simp)

/-- Every entry of the derived statistics carries the accumulator of the
same key from the input mapping. -/
theorem result_of_mem_data_to_stats (data : Data) (stats : Stats)
    (h : data_to_stats data = some stats) (p : ConfigKey × Stat) (hp : p ∈ stats) :
    (p.1, p.2.result) ∈ data := by
  induction data generalizing stats with
  | nil =>
    rw [data_to_stats] at h
    obtain rfl := Option.some.inj h
    simp at hp
  | cons hd tl ih =>
    obtain ⟨k0, r0⟩ := hd
    rw [data_to_stats] at h
    cases hmed : median r0.run_times with
    | none => rw [hmed] at h; simp at h
    | some m =>
      rw [hmed] at h
      cases hrec : data_to_stats tl with
      | none => rw [hrec] at h; simp at h
      | some sts =>
        rw [hrec] at h
        obtain rfl := Option.some.inj h
        rcases List.mem_cons.mp hp with heq | hmem
        · subst heq
          simp
        · exact List.mem_cons_of_mem _ (ih sts hrec hmem)

/-! ### The claims -/

/-- C1 (counterexample): the claim says a ConfigKey whose `Result` has an
empty `run_times` collection does not crash the pipeline and the ratios come
out as well-defined values.  On the code, a single `SUCCESS` line produces
exactly such a key, and `median` then indexes out of bounds
(`vals[len/2 - 1]` with `len = 0`): the run is a runtime fault, not a
completed report. -/
theorem pipeline_crashes_on_success_only_key :
    run ["PS_10/NG_20/run_1.output:SUCCESS".toList] = Except.error RunError.panicIndex := by
  decide

/-- C1 (amended): whenever any entry of the `Data` mapping has an empty
`run_times` collection, the statistics stage panics (models the
out-of-bounds index in `median`), so the pipeline aborts instead of
producing statistics. -/
theorem data_to_stats_none_of_empty_run_times (data : Data) (key : ConfigKey) (r : Result)
    (hmem : (key, r) ∈ data) (hempty : r.run_times = []) :
    data_to_stats data = none := by
  induction data with
  | nil => simp at hmem
  | cons hd tl ih =>
    obtain ⟨k0, r0⟩ := hd
    rcases List.mem_cons.mp hmem with heq | hmem'
    · obtain ⟨hk, hr⟩ := Prod.mk.injEq .. ▸ heq.symm
      subst hk; subst hr
      simp [data_to_stats, hempty, median_nil]
    · cases hmed : median r0.run_times with
      | none => simp [data_to_stats, hmed]
      | some m => simp [data_to_stats, hmed, ih hmem']

/-- C1 (witness for the amended theorem) at the one-key mapping built from a
single success observation. -/
theorem data_to_stats_none_of_empty_run_times_witness :
    ((10, 20), ({ num_runs := 0, num_successes := 1, run_times := [] } : Result)) ∈
      exampleEmptyData ∧
    ({ num_runs := 0, num_successes := 1, run_times := [] } : Result).run_times = [] ∧
    data_to_stats exampleEmptyData = none :=
  ⟨by decide, rfl,
    data_to_stats_none_of_empty_run_times exampleEmptyData (10, 20)
      { num_runs := 0, num_successes := 1, run_times := [] } (by decide) rfl⟩

/-- C2 (counterexample): the claim says a line whose outcome segment is
`SUCCESS123` is rejected.  On the code, `tag("SUCCESS")` consumes the
literal and leaves `123` unconsumed, `alt` commits to the first succeeding
alternative, and `parse_line` drops the remainder: the line is accepted as
a `Success` record. -/
theorem success123_accepted :
    parse_line "PS_10/NG_20/run_1.output:SUCCESS123".toList =
      Except.ok { population_size := 10, num_generations := 20, run_number := 1,
                  entry := Entry.Success } := by
  decide

/-- C2 (amended): the outcome alternative is resolved literal-first — any
input the `SUCCESS` literal matches is decided by that alternative before
the float parser is tried — but a line whose outcome segment is
`SUCCESS123` is accepted as `Success` with the trailing `123` left
unconsumed and ignored, not rejected. -/
theorem entry_literal_first_and_trailing_ignored :
    (∀ (s : Input) (r : Input × Entry), success s = some r → entry s = some r) ∧
    parse_line "PS_10/NG_20/run_1.output:SUCCESS123".toList =
      Except.ok { population_size := 10, num_generations := 20, run_number := 1,
                  entry := Entry.Success } := by
  constructor
  · intro s r h
    simp [entry, h]
  · decide

/-- C2 (witness): the literal-first clause applied at the exact literal. -/
theorem entry_literal_first_witness :
    success "SUCCESS".toList = some ([], Entry.Success) ∧
    entry "SUCCESS".toList = some ([], Entry.Success) :=
  ⟨by decide, entry_literal_first_and_trailing_ignored.1 _ _ (by decide)⟩

/-- C4: if any line of the input fails the grammar, the pipeline aborts with
the parse error of the first failing line: `run` returns `Except.error`
(the non-zero exit) carrying that line, and no statistics or tables (no
`Report`) are produced. -/
theorem run_aborts_at_first_parse_failure (input : List Input) (t : Input)
    (hfind : input.find? (fun s => (line s).isNone) = some t) :
    run input = Except.error (RunError.parseFailure t) := by
  unfold run
  rw [parseLines_find_error input t hfind]

/-- C4 (witness): a well-formed line followed by the malformed
`PS_10/NG_20/run_1.output:MAYBE` aborts the whole run at that line. -/
theorem run_aborts_at_first_parse_failure_witness :
    ["PS_10/NG_20/run_0.output:SUCCESS".toList,
     "PS_10/NG_20/run_1.output:MAYBE".toList].find? (fun s => (line s).isNone) =
      some "PS_10/NG_20/run_1.output:MAYBE".toList ∧
    run ["PS_10/NG_20/run_0.output:SUCCESS".toList,
         "PS_10/NG_20/run_1.output:MAYBE".toList] =
      Except.error (RunError.parseFailure "PS_10/NG_20/run_1.output:MAYBE".toList) :=
  ⟨by decide, run_aborts_at_first_parse_failure _ _ (by decide)⟩

/-- C9: `parse_line` keeps only the parsed value of the line grammar's
prefix: whenever the `line` parser succeeds on a prefix of the input, the
unconsumed remainder is silently discarded and the record is returned. -/
theorem parse_line_ignores_trailing (s rest : Input) (l : Line)
    (h : line s = some (rest, l)) : parse_line s = Except.ok l := by
  unfold parse_line
  rw [h]

/-- C9 (witness): a valid line followed by trailing garbage (`xyz` after the
float) still parses, to the record of the prefix. -/
theorem parse_line_ignores_trailing_witness :
    line "PS_1/NG_2/run_3.output: 4.5xyz".toList =
      some ("xyz".toList,
        { population_size := 1, num_generations := 2, run_number := 3,
          entry := Entry.RunTime (9/2) }) ∧
    parse_line "PS_1/NG_2/run_3.output: 4.5xyz".toList =
      Except.ok { population_size := 1, num_generations := 2, run_number := 3,
                  entry := Entry.RunTime (9/2) } := by
  have h : line "PS_1/NG_2/run_3.output: 4.5xyz".toList =
      some ("xyz".toList,
        { population_size := 1, num_generations := 2, run_number := 3,
          entry := Entry.RunTime (9/2) }) := by
    norm_num +decide [line, path, pop_size, num_gens, run_num, char, entry, success,
      run_time, space0, float, tag, u32, takeDigits, digitsVal, signVal, mantissa, exponent]
    simp
    norm_num
  exact ⟨h, parse_line_ignores_trailing _ _ _ h⟩

/-- C6 (counterexample): the claim says the resulting `Data` mapping is
invariant under any permutation of the input sequence.  The two counts are,
but the mapping itself is not: swapping two `RunTime` observations of the
same key reverses the order in which the times are pushed onto the key's
`run_times` vector, so the mappings differ. -/
theorem data_mapping_not_perm_invariant :
    ([lineA, lineB].Perm [lineB, lineA]) ∧
    from_iter [lineA, lineB] ≠ from_iter [lineB, lineA] :=
  ⟨List.Perm.swap lineB lineA [], by decide⟩

/-- C6 (amended): for every sequence of records and every key, `num_runs`
equals the count of `RunTime` records with that key and `num_successes`
the count of `Success` records with that key; under any permutation of the
input both counts are unchanged and the key's `run_times` collection is
the same multiset — the mapping is permutation-invariant up to the order
of each `run_times` vector (which is all the swap of two observations can
change). -/
theorem aggregator_counts_and_permutation (lines lines' : List Line)
    (h : lines.Perm lines') (key : ConfigKey) :
    ((lookupResult (from_iter lines) key).num_runs
        = lines.countP fun l => isRunTimeE l.entry && decide (keyOf l = key)) ∧
    ((lookupResult (from_iter lines) key).num_successes
        = lines.countP fun l => isSuccessE l.entry && decide (keyOf l = key)) ∧
    (lookupResult (from_iter lines) key).num_runs
        = (lookupResult (from_iter lines') key).num_runs ∧
    (lookupResult (from_iter lines) key).num_successes
        = (lookupResult (from_iter lines') key).num_successes ∧
    ((lookupResult (from_iter lines) key).run_times).Perm
        ((lookupResult (from_iter lines') key).run_times) := by
  have h1 := lookupResult_from_iter lines key
  have h2 := lookupResult_from_iter lines' key
  refine ⟨by rw [h1], by rw [h1], ?_, ?_, ?_⟩
  · rw [h1, h2]
    simpa using h.countP_eq _
  · rw [h1, h2]
    simpa using h.countP_eq _
  · rw [h1, h2]
    simpa using (h.filter _).filterMap _

/-- C6 (witness): the amended statement at two observations of one key in
the two possible orders. -/
theorem aggregator_counts_and_permutation_witness :
    ([lineA, lineB].Perm [lineB, lineA]) ∧
    ((lookupResult (from_iter [lineA, lineB]) (1, 2)).num_runs
        = [lineA, lineB].countP fun l => isRunTimeE l.entry && decide (keyOf l = (1, 2))) ∧
    ((lookupResult (from_iter [lineA, lineB]) (1, 2)).run_times).Perm
        ((lookupResult (from_iter [lineB, lineA]) (1, 2)).run_times) :=
  ⟨List.Perm.swap lineB lineA [],
    (aggregator_counts_and_permutation _ _ (List.Perm.swap lineB lineA []) _).1,
    (aggregator_counts_and_permutation _ _ (List.Perm.swap lineB lineA []) _).2.2.2.2⟩

/-- C7: the Statistics Engine neither drops, duplicates, nor invents keys —
whenever it completes, the derived mapping lists exactly the keys of the
input mapping (even in the same order). -/
theorem stats_keys_eq_data_keys (data : Data) (stats : Stats)
    (h : data_to_stats data = some stats) :
    stats.map Prod.fst = data.map Prod.fst := by
  induction data generalizing stats with
  | nil =>
    rw [data_to_stats] at h
    obtain rfl := Option.some.inj h
    rfl
  | cons hd tl ih =>
    obtain ⟨k0, r0⟩ := hd
    rw [data_to_stats] at h
    cases hmed : median r0.run_times with
    | none => rw [hmed] at h; simp at h
    | some m =>
      rw [hmed] at h
      cases hrec : data_to_stats tl with
      | none => rw [hrec] at h; simp at h
      | some sts =>
        rw [hrec] at h
        obtain rfl := Option.some.inj h
        simp [ih sts hrec]

/-- C7 (witness): at a one-key mapping whose statistics succeed. -/
theorem stats_keys_eq_data_keys_witness :
    data_to_stats exampleData1 = some exampleStats1 ∧
    exampleStats1.map Prod.fst = exampleData1.map Prod.fst :=
  ⟨rfl, stats_keys_eq_data_keys exampleData1 exampleStats1 rfl⟩

/-- C8: every accumulator consumed by the Statistics Engine is embedded
unchanged in the produced `Stat` — same `num_runs`, `num_successes` and
`run_times`, in the original insertion order; the sort for the median
happens on a copy and the stored `Result` is untouched. -/
theorem stat_embeds_result_unchanged (data : Data) (stats : Stats)
    (h : data_to_stats data = some stats) (key : ConfigKey) (r : Result)
    (hmem : (key, r) ∈ data) :
    ∃ st : Stat, (key, st) ∈ stats ∧ st.result = r := by
  induction data generalizing stats with
  | nil => simp at hmem
  | cons hd tl ih =>
    obtain ⟨k0, r0⟩ := hd
    rw [data_to_stats] at h
    cases hmed : median r0.run_times with
    | none => rw [hmed] at h; simp at h
    | some m =>
      rw [hmed] at h
      cases hrec : data_to_stats tl with
      | none => rw [hrec] at h; simp at h
      | some sts =>
        rw [hrec] at h
        obtain rfl := Option.some.inj h
        rcases List.mem_cons.mp hmem with heq | hmem'
        · obtain ⟨hk, hr⟩ := Prod.mk.injEq .. ▸ heq
          subst hk
          subst hr
          exact ⟨_, List.mem_cons_self _ _, rfl⟩
        · obtain ⟨st, hst, hres⟩ := ih sts hrec hmem'
          exact ⟨st, List.mem_cons_of_mem _ hst, hres⟩

/-- C8 (witness): the accumulator of `exampleData1` reappears unchanged in
the derived statistics. -/
theorem stat_embeds_result_unchanged_witness :
    ((1, 2), ({ num_runs := 1, num_successes := 1, run_times := [3] } : Result)) ∈
      exampleData1 ∧
    data_to_stats exampleData1 = some exampleStats1 ∧
    ∃ st : Stat, ((1, 2), st) ∈ exampleStats1 ∧
      st.result = { num_runs := 1, num_successes := 1, run_times := [3] } :=
  ⟨by decide, rfl,
    stat_embeds_result_unchanged exampleData1 exampleStats1 rfl (1, 2) _ (by decide)⟩

/-- C10: each `RunTime` record increments `num_runs` and appends exactly one
time, and `Success` records touch neither, so every accumulator the
Aggregator produces satisfies `num_runs = run_times.length`; the equality
still holds for the `Result` embedded in every produced `Stat`. -/
theorem num_runs_eq_run_times_length (lines : List Line) (key : ConfigKey) :
    ((lookupResult (from_iter lines) key).num_runs
        = (lookupResult (from_iter lines) key).run_times.length) ∧
    ∀ stats, data_to_stats (from_iter lines) = some stats →
      ∀ p ∈ stats, (p.2 : Stat).result.num_runs = p.2.result.run_times.length := by
  constructor
  · rw [lookupResult_from_iter]
    simp only [length_filterMap_runTimeValue, List.countP_filter]
  · intro stats h p hp
    exact from_iter_preserves_count lines _ (result_of_mem_data_to_stats _ _ h p hp)

/-- C10 (witness): at one run time and one success for a single key, both
in the aggregated mapping and in the derived statistics. -/
theorem num_runs_eq_run_times_length_witness :
    ((lookupResult (from_iter exampleLines) (1, 2)).num_runs
        = (lookupResult (from_iter exampleLines) (1, 2)).run_times.length) ∧
    data_to_stats (from_iter exampleLines) = some exampleStats2 ∧
    exampleStatEntry ∈ exampleStats2 ∧
    exampleStatEntry.2.result.num_runs = exampleStatEntry.2.result.run_times.length :=
  ⟨(num_runs_eq_run_times_length exampleLines (1, 2)).1, rfl, List.Mem.head _,
    (num_runs_eq_run_times_length exampleLines (1, 2)).2 exampleStats2 rfl
      exampleStatEntry (List.Mem.head _)⟩

/-- C5: on every non-empty list the source's `median` succeeds and returns
the order-statistic median the spec describes (middle element for odd
length, mean of the two middle elements for even length); in particular
`median [1, 2, 3] = 2` and `median [1, 2, 3, 4] = 5/2`. -/
theorem median_is_order_statistic :
    (∀ vals : List ℚ, vals ≠ [] → median vals = some (median_spec vals)) ∧
    median [1, 2, 3] = some 2 ∧ median [1, 2, 3, 4] = some (5/2) := by
  refine ⟨?_, ?_, ?_⟩
  · intro vals hne
    have hpos : 0 < (sortAsc vals).length := by
      rw [sortAsc, (List.perm_insertionSort _ _).length_eq]
      exact List.length_pos.mpr hne
    unfold median median_spec
    by_cases hodd : (sortAsc vals).length % 2 = 1
    · have hlt : (sortAsc vals).length / 2 < (sortAsc vals).length := by omega
      rw [if_pos hodd, if_pos hodd, List.getElem?_eq_getElem hlt,
        List.getD_eq_getElem _ _ hlt]
    · have hlt1 : (sortAsc vals).length / 2 - 1 < (sortAsc vals).length := by omega
      have hlt2 : (sortAsc vals).length / 2 < (sortAsc vals).length := by omega
      rw [if_neg hodd, if_neg hodd, List.getElem?_eq_getElem hlt1,
        List.getElem?_eq_getElem hlt2, List.getD_eq_getElem _ _ hlt1,
        List.getD_eq_getElem _ _ hlt2]
  · norm_num [median, sortAsc, List.insertionSort, List.orderedInsert]
  · norm_num [median, sortAsc, List.insertionSort, List.orderedInsert]

/-- C5 (witness): the general clause applied to `[1, 2, 3]`. -/
theorem median_is_order_statistic_witness :
    ([(1 : ℚ), 2, 3] ≠ []) ∧ median [1, 2, 3] = some (median_spec [1, 2, 3]) :=
  ⟨by simp, median_is_order_statistic.1 [1, 2, 3] (by simp)⟩

/-- C3 (counterexample): the claim says two runs on identical input order
tied rows identically.  The row order of ties depends on the iteration
order of the `Stats` mapping, which Rust's `HashMap` does not fix across
runs: here the same mapping, iterated in its two possible orders, yields
the tied table rows in two different orders. -/
theorem tie_order_depends_on_iteration_order :
    (([((1, 1), statA), ((2, 2), statA)] : Stats).Perm
        [((2, 2), statA), ((1, 1), statA)]) ∧
    (report [((1, 1), statA), ((2, 2), statA)]).table1 ≠
      (report [((2, 2), statA), ((1, 1), statA)]).table1 :=
  ⟨List.Perm.swap ((2, 2), statA) ((1, 1), statA) [], by decide⟩

/-- C3 (amended): each table lists exactly the mapping's entries (a
permutation) sorted ascending by its metric, and the report is a function
of the `Stats` list — deterministic once an iteration order of the mapping
is fixed.  The relative order of equal-metric rows is **not** fixed by the
input alone: it depends on that iteration order (see the counterexample),
which the `HashMap` does not fix across runs. -/
theorem report_tables_sorted_perm (stats : Stats) :
    ((report stats).table1).Perm (stats.map fun p => (p.1, p.2.successes_per_mean)) ∧
    List.Sorted (fun a b => a.2 ≤ b.2) ((report stats).table1) ∧
    ((report stats).table2).Perm (stats.map fun p => (p.1, p.2.successes_per_median)) ∧
    List.Sorted (fun a b => a.2 ≤ b.2) ((report stats).table2) := by
  have hperm1 : (sortByMetric Stat.successes_per_mean stats).Perm stats :=
    List.perm_insertionSort _ _
  have hperm2 : (sortByMetric Stat.successes_per_median
      (sortByMetric Stat.successes_per_mean stats)).Perm stats :=
    (List.perm_insertionSort _ _).trans hperm1
  have hs1 : List.Sorted (metricLE Stat.successes_per_mean)
      (sortByMetric Stat.successes_per_mean stats) :=
    List.sorted_insertionSort _ _
  have hs2 : List.Sorted (metricLE Stat.successes_per_median)
      (sortByMetric Stat.successes_per_median (sortByMetric Stat.successes_per_mean stats)) :=
    List.sorted_insertionSort _ _
  refine ⟨hperm1.map _, ?_, hperm2.map _, ?_⟩
  · show List.Pairwise (fun a b => a.2 ≤ b.2)
      ((sortByMetric Stat.successes_per_mean stats).map fun p => (p.1, p.2.successes_per_mean))
    rw [List.pairwise_map]
    exact hs1.imp fun h => h
  · show List.Pairwise (fun a b => a.2 ≤ b.2)
      ((sortByMetric Stat.successes_per_median
          (sortByMetric Stat.successes_per_mean stats)).map
        fun p => (p.1, p.2.successes_per_median))
    rw [List.pairwise_map]
    exact hs2.imp fun h => h

end TimingStats

/-! ### Sanity checks (the concrete test properties of the spec) -/

section SanityChecks
open TimingStats
example : parse_line "PS_10/NG_20/run_0.output:SUCCESS".toList =
    Except.ok { population_size := 10, num_generations := 20, run_number := 0,
                entry := Entry.Success } := by decide
example : parse_line "PS_10/NG_20/run_1.output: 3.5".toList =
    Except.ok { population_size := 10, num_generations := 20, run_number := 1,
                entry := Entry.RunTime (7/2) } := by
  norm_num +decide [parse_line, line, path, pop_size, num_gens, run_num, char, entry, success,
    run_time, space0, float, tag, u32, takeDigits, digitsVal, signVal, mantissa, exponent]
  simp
  norm_num
example : (parse_line "PS_10/NG_20/run_1.output:MAYBE".toList).isOk = false := by decide
example : parse_line "PS_10/NG_20/run_1.output:SUCCESS123".toList =
    Except.ok { population_size := 10, num_generations := 20, run_number := 1,
                entry := Entry.Success } := by decide
example : median [1, 2, 3] = some 2 := by decide
example : median [1, 2, 3, 4] = some (5/2) := by
  norm_num [median, sortAsc, List.insertionSort, List.orderedInsert]
example : median [] = none := by decide
example : mean [2, 4, 6] = 4 := by norm_num [mean]
example : data_to_stats [((10, 20), { num_runs := 0, num_successes := 1, run_times := [] })] = none := by decide
example : mean [2, 4, 6] = 4 ∧ ((4 : ℚ)) / mean [2, 4, 6] = 1 := by norm_num [mean]
end SanityChecks
